import Mathlib

/-!
Verification of the acq400_hapi host-side client (`acq400.py`): the
status-tracking state machine (`Statusmonitor`), the channel-stream reader
(`Channelclient.read`), and the device proxy (`Acq400`).

Python state is modelled by explicit records; the background polling loop is
modelled as a fold over the list of inbound telemetry records; socket `recv`
is modelled as consuming successive chunks from a list of byte deliveries.
-/

namespace Acq400Hapi

/-! ## Telemetry record matching

`Statusmonitor.st_re = re.compile(r"([0-9]) ([0-9]+) ([0-9]+) ([0-9]+) ([0-9])+")`
applied with `re.search` (leftmost match).  Since `[0-9]` and the literal
space are disjoint character classes, the backtracking search is equivalent
to the deterministic greedy matcher below.  The final `([0-9])+` repeats a
one-character group, so group 5 captures only the last digit of the final
run. -/

/-- Maximal leading digit run of a character list and the remainder
(the greedy semantics of `[0-9]+`). -/
def splitDigits : List Char → List Char × List Char
  | [] => ([], [])
  | c :: cs =>
    if c.isDigit then
      let p := splitDigits cs
      (c :: p.1, p.2)
    else ([], c :: cs)

/-- Match one literal space. -/
def expectSpace : List Char → Option (List Char)
  | ' ' :: r => some r
  | _ => none

/-- Match a nonempty digit run (`[0-9]+`), returning the run and the rest. -/
def expectDigits (l : List Char) : Option (List Char × List Char) :=
  match splitDigits l with
  | ([], _) => none
  | (g, r) => some (g, r)

/-- Attempt to match the status pattern at the start of `l`, returning the
five captured groups on success.  Group 1 is a single digit; groups 2–4 are
nonempty digit runs; group 5 is the single-character group `([0-9])`, whose
captured value after `+`-repetition is the last digit of the final run. -/
def matchAt : List Char → Option (List (List Char))
  | [] => none
  | c :: l1 =>
    if c.isDigit then
      match expectSpace l1 with
      | none => none
      | some l2 =>
        match expectDigits l2 with
        | none => none
        | some (g2, l3) =>
          match expectSpace l3 with
          | none => none
          | some l4 =>
            match expectDigits l4 with
            | none => none
            | some (g3, l5) =>
              match expectSpace l5 with
              | none => none
              | some l6 =>
                match expectDigits l6 with
                | none => none
                | some (g4, l7) =>
                  match expectSpace l7 with
                  | none => none
                  | some l8 =>
                    match expectDigits l8 with
                    | none => none
                    | some (g5, _) => some [[c], g2, g3, g4, [g5.getLastD '0']]
    else none

/-- `st_re.search`: try the pattern at each position, leftmost first. -/
def st_re_search : List Char → Option (List (List Char))
  | [] => none
  | c :: r =>
    match matchAt (c :: r) with
    | some g => some g
    | none => st_re_search r

/-- Python `int` on a digit string. -/
def digitsToNat (l : List Char) : Nat :=
  l.foldl (fun a c => 10 * a + (c.toNat - 48)) 0

/-- `status1 = [int(x) for x in match.groups()]` after a successful search;
`none` when the record does not match. -/
def parseRecord (r : List Char) : Option (List Nat) :=
  (st_re_search r).map (fun gs => gs.map digitsToNat)

/-- Re-serialization of captured groups, joined by single spaces. -/
def serializeGroups : List (List Char) → List Char
  | [] => []
  | [g] => g
  | g :: gs => g ++ ' ' :: serializeGroups gs

/-! ## `SF` state constants -/

namespace SF

def STATE : Nat := 0

def PRE : Nat := 1

def POST : Nat := 2

def ELAPSED : Nat := 3

def DEMUX : Nat := 5

end SF

/-! ## `Statusmonitor` -/

/-- Mutable state of one `Statusmonitor` instance. -/
structure MonState where
  quit_requested : Bool
  status : Option (List Nat)
  armed : Bool
  stopped : Bool
deriving DecidableEq, Repr

/-- `Statusmonitor.__init__(_uut, _status)`: quit flag cleared, both events
cleared, status seeded. -/
def Statusmonitor.init (seed : List Nat) : MonState :=
  { quit_requested := false, status := some seed, armed := false, stopped := false }

/-- Observable outcome of processing one telemetry record in `st_monitor`:
the successor state, whether each event was set for this record, how many
`os.kill` termination requests were issued, and whether `sys.exit` ran. -/
structure StepResult where
  st : MonState
  armedRaised : Bool
  stoppedRaised : Bool
  kills : Nat
  exited : Bool
deriving DecidableEq, Repr

/-- One iteration of the `st_monitor` loop body on record `r`. -/
def st_monitor_step (s : MonState) (r : List Char) : StepResult :=
  match parseRecord r with
  | none => ⟨s, false, false, 0, false⟩
  | some status1 =>
    match s.status with
    | none => ⟨{ s with status := some status1 }, false, false, 0, false⟩
    | some prev =>
      let stoppedR : Bool := !(prev.getD SF.STATE 0 == 0) && (status1.getD SF.STATE 0 == 0)
      let armedR : Bool := status1.getD SF.STATE 0 == 1
      let fault : Bool := (prev.getD SF.STATE 0 == 0) && Nat.blt 1 (status1.getD SF.STATE 0)
      if fault then
        -- quit_requested is set, os.kill issued, and sys.exit(1) raises
        -- before `self.status = status1` is reached
        ⟨{ s with quit_requested := true,
                  stopped := s.stopped || stoppedR,
                  armed := s.armed || armedR },
         armedR, stoppedR, 1, true⟩
      else
        ⟨{ s with status := some status1,
                  stopped := s.stopped || stoppedR,
                  armed := s.armed || armedR },
         armedR, stoppedR, 0, false⟩

/-- The `st_monitor` loop over a list of inbound records: stops when
`quit_requested` is observed at the top of the loop or `sys.exit` fires
inside the body.  Returns the final state and the per-record outcomes of the
records actually processed. -/
def st_monitor_run (s : MonState) : List (List Char) → MonState × List StepResult
  | [] => (s, [])
  | r :: rs =>
    if s.quit_requested then (s, [])
    else
      let out := st_monitor_step s r
      if out.exited then (out.st, [out])
      else
        let rest := st_monitor_run out.st rs
        (rest.1, out :: rest.2)

/-! ## `Statusmonitor.wait_event` and the blocking waits

`wait_event` polls `ev.wait(0.1)`; if the event is set it falls through and
clears it; otherwise each tick checks `quit_requested` and calls
`sys.exit(1)` when set; with neither, it keeps polling (blocks). -/

inductive WaitResult where
  | success
  | exitCall
  | blocked
deriving DecidableEq, Repr

/-- Sequential semantics of one `wait_event` call on an event flag `ev`:
returns the outcome and the flag's value after the call. -/
def wait_event (ev quit : Bool) : WaitResult × Bool :=
  if ev then (WaitResult.success, false)
  else if quit then (WaitResult.exitCall, ev)
  else (WaitResult.blocked, ev)

/-- `wait_armed`: `wait_event(self.armed, "armed")`. -/
def wait_armed (s : MonState) : WaitResult × MonState :=
  ((wait_event s.armed s.quit_requested).1,
   { s with armed := (wait_event s.armed s.quit_requested).2 })

/-- `wait_stopped`: `wait_event(self.stopped, "stopped")`. -/
def wait_stopped (s : MonState) : WaitResult × MonState :=
  ((wait_event s.stopped s.quit_requested).1,
   { s with stopped := (wait_event s.stopped s.quit_requested).2 })

/-- `self.armed.set()` as performed by the poller. -/
def raiseArmed (s : MonState) : MonState := { s with armed := true }

/-- `self.stopped.set()` as performed by the poller. -/
def raiseStopped (s : MonState) : MonState := { s with stopped := true }

/-! ## `Channelclient.read`

The socket is modelled as the list of byte chunks that successive
`recv(maxbuf)` calls deliver.  Bytes are `Nat`s below 256. -/

/-- `buffer += self.sock.recv(maxbuf)` until `len(buffer) >= need`; `none`
when the deliveries run out before the requested byte count is reached. -/
def readAccum (buffer : List Nat) (need : Nat) : List (List Nat) → Option (List Nat)
  | [] => if need ≤ buffer.length then some buffer else none
  | c :: cs =>
    if need ≤ buffer.length then some buffer
    else readAccum (buffer ++ c) need cs

/-- Little-endian value of a byte list. -/
def bytesToNatLE : List Nat → Nat
  | [] => 0
  | b :: bs => b % 256 + 256 * bytesToNatLE bs

/-- One signed little-endian sample of width `w` bytes. -/
def toSignedLE (w : Nat) (bytes : List Nat) : Int :=
  let v := bytesToNatLE bytes
  if v < 2 ^ (8 * w - 1) then (v : Int) else (v : Int) - 2 ^ (8 * w)

/-- `numpy.frombuffer(buf, dtype=iW, count=n)`: the first `n` signed
little-endian samples of width `w`. -/
def numpy_frombuffer (w n : Nat) (buf : List Nat) : List Int :=
  (List.range n).map (fun i => toSignedLE w ((buf.drop (i * w)).take w))

/-- `Channelclient.read(ndata, data_size=2, maxbuf=4096)`: an unconditional
first `recv`, then accumulate until `ndata*data_size` bytes are held, then
decode exactly `ndata` samples. -/
def Channelclient.read (chunks : List (List Nat)) (ndata : Nat)
    (data_size : Nat := 2) (maxbuf : Nat := 4096) : Option (List Int) :=
  match chunks with
  | [] => none
  | c :: cs => (readAccum c (ndata * data_size) cs).map (numpy_frombuffer data_size ndata)

/-- Total bytes consumed from the socket by `Channelclient.read` (every
received byte is appended to `buffer`, so this is the final buffer length). -/
def Channelclient.readConsumed (chunks : List (List Nat)) (ndata : Nat)
    (data_size : Nat := 2) : Option Nat :=
  match chunks with
  | [] => none
  | c :: cs => (readAccum c (ndata * data_size) cs).map List.length

/-! ## `Acq400` device proxy -/

/-- The fields of `Acq400` the claims depend on: `statmon` is assigned only
when the constructor is called with `monitor=True`; reading it otherwise
raises `AttributeError` through `__getattr__`, modelled as `none`. -/
structure Acq400 where
  statmon : Option MonState
deriving DecidableEq, Repr

/-- `Acq400.__init__(_uut, monitor=True)`: the seed status vector is parsed
from the synchronous `s0.state` query, but handed to a `Statusmonitor` only
when `monitor` is true. -/
def Acq400.init (seed : List Nat) (monitor : Bool) : Acq400 :=
  { statmon := if monitor then some (Statusmonitor.init seed) else none }

/-- `self.statmon.status[idx]`: `none` models `AttributeError` (no `statmon`
attribute) or `IndexError` (index out of range). -/
def Acq400.statusField (a : Acq400) (idx : Nat) : Option Nat :=
  a.statmon.bind (fun m => m.status.bind (fun st => st.get? idx))

/-- `Acq400.state`. -/
def Acq400.state (a : Acq400) : Option Nat := a.statusField SF.STATE

/-- `Acq400.pre_samples`. -/
def Acq400.pre_samples (a : Acq400) : Option Nat := a.statusField SF.PRE

/-- `Acq400.post_samples`. -/
def Acq400.post_samples (a : Acq400) : Option Nat := a.statusField SF.POST

/-- `Acq400.elapsed_samples`. -/
def Acq400.elapsed_samples (a : Acq400) : Option Nat := a.statusField SF.ELAPSED

/-- `Acq400.demux_status`. -/
def Acq400.demux_status (a : Acq400) : Option Nat := a.statusField SF.DEMUX

/-- `Acq400.samples`: `pre_samples() + post_samples()`. -/
def Acq400.samples (a : Acq400) : Option Nat :=
  match a.pre_samples, a.post_samples with
  | some p, some q => some (p + q)
  | _, _ => none

/-- `Acq400.read_chan`: `Channelclient(...).read(pre_samples()+post_samples())`
— no `data_size` argument, so the default width 2 applies. -/
def Acq400.read_chan (a : Acq400) (chunks : List (List Nat)) : Option (List Int) :=
  match a.pre_samples, a.post_samples with
  | some p, some q => Channelclient.read chunks (p + q)
  | _, _ => none

/-- `Acq400.read_channels`: sequential `read_chan` per selected channel;
`streams` gives each selected channel's byte deliveries in caller order. -/
def Acq400.read_channels (a : Acq400) (streams : List (List (List Nat))) :
    List (Option (List Int)) :=
  streams.map (fun chunks => a.read_chan chunks)

/-! ## Helper lemmas -/

/-- A non-matching record leaves the monitor state untouched and produces no
observable effect. -/
theorem st_monitor_step_none (s : MonState) (r : List Char)
    (h : parseRecord r = none) :
    st_monitor_step s r = ⟨s, false, false, 0, false⟩ := by
  simp [st_monitor_step, h]

/-- Characterization of one `st_monitor` iteration on a matching record when
a previous snapshot exists and no sequencing fault occurs. -/
theorem st_monitor_step_some (s : MonState) (prev : List Nat) (r : List Char)
    (v : List Nat) (hs : s.status = some prev) (hp : parseRecord r = some v)
    (hnf : ¬(prev.getD SF.STATE 0 = 0 ∧ 1 < v.getD SF.STATE 0)) :
    st_monitor_step s r =
      ⟨{ s with status := some v,
                stopped := s.stopped ||
                  (!(prev.getD SF.STATE 0 == 0) && (v.getD SF.STATE 0 == 0)),
                armed := s.armed || (v.getD SF.STATE 0 == 1) },
       (v.getD SF.STATE 0 == 1),
       !(prev.getD SF.STATE 0 == 0) && (v.getD SF.STATE 0 == 0),
       0, false⟩ := by
  have hnfn : ¬(prev[SF.STATE]?.getD 0 = 0 ∧ 1 < v[SF.STATE]?.getD 0) := by
    simpa [List.getD_eq_getElem?_getD] using hnf
  simp [st_monitor_step, hp, hs, hnfn]

/-- Characterization of one `st_monitor` iteration on a sequencing fault. -/
theorem st_monitor_step_fault (s : MonState) (prev : List Nat) (r : List Char)
    (v : List Nat) (hs : s.status = some prev) (hp : parseRecord r = some v)
    (h0 : prev.getD SF.STATE 0 = 0) (h1 : 1 < v.getD SF.STATE 0) :
    st_monitor_step s r = ⟨{ s with quit_requested := true }, false, false, 1, true⟩ := by
  have h0n : prev[SF.STATE]?.getD 0 = 0 := by
    simpa [List.getD_eq_getElem?_getD] using h0
  have h1n : 1 < v[SF.STATE]?.getD 0 := by
    simpa [List.getD_eq_getElem?_getD] using h1
  have h1e : v[SF.STATE]?.getD 0 ≠ 1 := Nat.ne_of_gt h1n
  simp [st_monitor_step, hp, hs, h0n, h1n, h1e]

/-- If the deliveries carry enough bytes, accumulation succeeds; the
returned buffer is a prefix of all delivered bytes and holds at least the
requested count. -/
theorem readAccum_spec (need : Nat) :
    ∀ (chunks : List (List Nat)) (buffer : List Nat),
      need ≤ buffer.length + (chunks.map List.length).sum →
      ∃ buf t, readAccum buffer need chunks = some buf ∧
        buf ++ t = buffer ++ chunks.flatten ∧ need ≤ buf.length := by
  intro chunks
  induction chunks with
  | nil =>
    intro buffer h
    simp only [List.map_nil, List.sum_nil, Nat.add_zero] at h
    exact ⟨buffer, [], by simp [readAccum, h], by simp, h⟩
  | cons c cs ih =>
    intro buffer h
    by_cases hb : need ≤ buffer.length
    · exact ⟨buffer, c ++ cs.flatten, by simp [readAccum, hb], by simp, hb⟩
    · have h2 : need ≤ (buffer ++ c).length + (cs.map List.length).sum := by
        simp only [List.map_cons, List.sum_cons, List.length_append] at h ⊢
        omega
      obtain ⟨buf, t, h1, happ, h3⟩ := ih (buffer ++ c) h2
      refine ⟨buf, t, by simp [readAccum, hb, h1], ?_, h3⟩
      rw [happ]
      simp [List.append_assoc]

/-- A decode of the first `n` width-`w` samples only inspects the first
`n * w` bytes, so a sufficiently long prefix decodes identically. -/
theorem numpy_frombuffer_prefix (w n : Nat) (buf t : List Nat)
    (h : n * w ≤ buf.length) :
    numpy_frombuffer w n (buf ++ t) = numpy_frombuffer w n buf := by
  unfold numpy_frombuffer
  refine List.map_congr_left ?_
  intro i hi
  have hiw : i * w + w ≤ buf.length := by
    have hin : i < n := List.mem_range.mp hi
    calc i * w + w = (i + 1) * w := by ring
    _ ≤ n * w := Nat.mul_le_mul_right w hin
    _ ≤ buf.length := h
  have hdrop : (buf ++ t).drop (i * w) = buf.drop (i * w) ++ t :=
    List.drop_append_of_le_length (by omega)
  have htake : (buf.drop (i * w) ++ t).take w = (buf.drop (i * w)).take w :=
    List.take_append_of_le_length (by simp [List.length_drop]; omega)
  rw [hdrop, htake]

/-- Accumulation with bounded deliveries overshoots the requested byte count
by less than one delivery. -/
theorem readAccum_bound (need maxbuf : Nat) :
    ∀ (chunks : List (List Nat)) (buffer : List Nat),
      (∀ c ∈ chunks, c.length ≤ maxbuf) →
      need ≤ buffer.length + (chunks.map List.length).sum →
      buffer.length < need + maxbuf →
      ∃ buf, readAccum buffer need chunks = some buf ∧
        need ≤ buf.length ∧ buf.length < need + maxbuf := by
  intro chunks
  induction chunks with
  | nil =>
    intro buffer _ h hlt
    simp only [List.map_nil, List.sum_nil, Nat.add_zero] at h
    exact ⟨buffer, by simp [readAccum, h], h, hlt⟩
  | cons c cs ih =>
    intro buffer hm h hlt
    by_cases hb : need ≤ buffer.length
    · exact ⟨buffer, by simp [readAccum, hb], hb, hlt⟩
    · have hc : c.length ≤ maxbuf := hm c (by simp)
      have hm2 : ∀ d ∈ cs, d.length ≤ maxbuf := fun d hd => hm d (by simp [hd])
      have h2 : need ≤ (buffer ++ c).length + (cs.map List.length).sum := by
        simp only [List.map_cons, List.sum_cons, List.length_append] at h ⊢
        omega
      have hlt2 : (buffer ++ c).length < need + maxbuf := by
        simp only [List.length_append]
        omega
      obtain ⟨buf, h1, h3, h4⟩ := ih (buffer ++ c) hm2 h2 hlt2
      exact ⟨buf, by simp [readAccum, hb, h1], h3, h4⟩

/-- Greedy digit-run splitting consumes exactly a digit prefix when the
remainder does not start with a digit. -/
theorem splitDigits_append_nondigit :
    ∀ (p : List Char), (∀ c ∈ p, c.isDigit = true) →
    ∀ (r : List Char), (∀ c, r.head? = some c → c.isDigit = false) →
    splitDigits (p ++ r) = (p, r)
  | [], _, r, hr => by
    cases r with
    | nil => rfl
    | cons c r2 => simp [splitDigits, hr c rfl]
  | a :: p2, hp, r, hr => by
    have ha : a.isDigit = true := hp a (by simp)
    have hp2 : ∀ c ∈ p2, c.isDigit = true := fun c hc => hp c (by simp [hc])
    simp [splitDigits, ha, splitDigits_append_nondigit p2 hp2 r hr]

/-- `[0-9]+` matches exactly a nonempty digit prefix when the remainder
does not start with a digit. -/
theorem expectDigits_append (p r : List Char) (hne : p ≠ [])
    (hp : ∀ c ∈ p, c.isDigit = true)
    (hr : ∀ c, r.head? = some c → c.isDigit = false) :
    expectDigits (p ++ r) = some (p, r) := by
  unfold expectDigits
  rw [splitDigits_append_nondigit p hp r hr]
  cases p with
  | nil => exact absurd rfl hne
  | cons a p2 => rfl

/-- The status pattern matches a well-formed record with single-digit state
and demux fields at position 0, capturing exactly the five fields. -/
theorem matchAt_record (s d : Char) (p q e : List Char)
    (hs : s.isDigit = true) (hd : d.isDigit = true)
    (hpn : p ≠ []) (hp : ∀ c ∈ p, c.isDigit = true)
    (hqn : q ≠ []) (hq : ∀ c ∈ q, c.isDigit = true)
    (hen : e ≠ []) (he : ∀ c ∈ e, c.isDigit = true) :
    matchAt (s :: ' ' :: (p ++ ' ' :: (q ++ ' ' :: (e ++ ' ' :: [d])))) =
      some [[s], p, q, e, [d]] := by
  have hsp : ∀ (x : List Char) (c : Char), (' ' :: x).head? = some c → c.isDigit = false := by
    intro x c hc
    injection hc with h
    rw [← h]
    decide
  have h1 : expectDigits (p ++ ' ' :: (q ++ ' ' :: (e ++ ' ' :: [d]))) =
      some (p, ' ' :: (q ++ ' ' :: (e ++ ' ' :: [d]))) :=
    expectDigits_append p _ hpn hp (hsp _)
  have h2 : expectDigits (q ++ ' ' :: (e ++ ' ' :: [d])) =
      some (q, ' ' :: (e ++ ' ' :: [d])) :=
    expectDigits_append q _ hqn hq (hsp _)
  have h3 : expectDigits (e ++ ' ' :: [d]) = some (e, ' ' :: [d]) :=
    expectDigits_append e _ hen he (hsp _)
  have h4 : expectDigits [d] = some ([d], []) := by
    have : splitDigits [d] = ([d], []) := by simp [splitDigits, hd]
    unfold expectDigits
    rw [this]
  simp [matchAt, hs, expectSpace, h1, h2, h3, h4]

/-! ## Claim theorems -/

/-- Claim C3: for any requested sample count `ndata >= 1`, width in
`{2, 4}`, and any fragmentation of the incoming byte stream into successive
`recv` deliveries carrying at least `ndata*width` bytes in total,
`Channelclient.read` succeeds and returns exactly `ndata` decoded signed
little-endian samples — the single-shot decode of the concatenated
deliveries, never fewer elements. -/
theorem c3_read_fragmented_complete (chunks : List (List Nat)) (ndata width : Nat)
    (h1 : 1 ≤ ndata) (h2 : width = 2 ∨ width = 4)
    (h3 : ndata * width ≤ (chunks.map List.length).sum) :
    Channelclient.read chunks ndata width =
      some (numpy_frombuffer width ndata chunks.flatten) ∧
    (numpy_frombuffer width ndata chunks.flatten).length = ndata := by
  have hw : 1 ≤ width := by rcases h2 with h | h <;> omega
  have hpos : 1 ≤ ndata * width := Nat.le_trans hw (Nat.le_mul_of_pos_left width h1)
  cases chunks with
  | nil =>
    simp only [List.map_nil, List.sum_nil] at h3
    omega
  | cons c cs =>
    have h3' : ndata * width ≤ c.length + (cs.map List.length).sum := by
      simpa using h3
    obtain ⟨buf, t, hr, happ, hlen⟩ := readAccum_spec (ndata * width) cs c h3'
    have hflat : (c :: cs).flatten = buf ++ t := by
      rw [List.flatten_cons, ← happ]
    constructor
    · show (readAccum c (ndata * width) cs).map (numpy_frombuffer width ndata) = _
      rw [hr, hflat, numpy_frombuffer_prefix width ndata buf t hlen]
      rfl
    · simp [numpy_frombuffer]

/-- Witness for C3: 12 samples of width 2 delivered across fragments of
10, 7, 5 and 2 bytes (the spec's `{10, 7, 5, sampleCount*width - 22}`
fragmentation). -/
theorem c3_read_fragmented_complete_witness :
    Channelclient.read
        [[1, 0, 2, 0, 3, 0, 4, 0, 5, 0], [6, 0, 7, 0, 8, 0, 9], [0, 10, 0, 255, 255],
         [254, 255]] 12 2 =
      some (numpy_frombuffer 2 12
        [[1, 0, 2, 0, 3, 0, 4, 0, 5, 0], [6, 0, 7, 0, 8, 0, 9], [0, 10, 0, 255, 255],
         [254, 255]].flatten) ∧
    (numpy_frombuffer 2 12
        [[1, 0, 2, 0, 3, 0, 4, 0, 5, 0], [6, 0, 7, 0, 8, 0, 9], [0, 10, 0, 255, 255],
         [254, 255]].flatten).length = 12 :=
  c3_read_fragmented_complete
    [[1, 0, 2, 0, 3, 0, 4, 0, 5, 0], [6, 0, 7, 0, 8, 0, 9], [0, 10, 0, 255, 255],
     [254, 255]] 12 2 (by decide) (Or.inl rfl) (by decide)

/-- Claim C6 counterexample: the reader does not consume exactly
`ndata*data_size` bytes.  With `ndata = 1` at the default width 2 the
expected total is 2 bytes, yet a first delivery of 10 bytes is consumed
whole: `recv(maxbuf)` is issued without bounding it to the bytes still
missing. -/
theorem c6_overread_counterexample :
    Channelclient.readConsumed [[1, 2, 3, 4, 5, 6, 7, 8, 9, 10]] 1 = some 10 ∧
    (10 : Nat) ≠ 1 * 2 := by
  constructor
  · rfl
  · decide

/-- Claim C6 (amended): the reader consumes at least `ndata*data_size` bytes
and stops issuing receives as soon as that many are held; since one `recv`
may return up to `maxbuf` bytes, consumption can exceed the expected total
by up to `maxbuf - 1` bytes. -/
theorem c6_read_bounded_overshoot (chunks : List (List Nat)) (ndata width maxbuf : Nat)
    (h0 : 1 ≤ ndata * width)
    (hm : ∀ c ∈ chunks, c.length ≤ maxbuf)
    (ht : ndata * width ≤ (chunks.map List.length).sum) :
    (∃ consumed, Channelclient.readConsumed chunks ndata width = some consumed ∧
      ndata * width ≤ consumed ∧ consumed < ndata * width + maxbuf) ∧
    (∀ b rest, ndata * width ≤ b.length → readAccum b (ndata * width) rest = some b) := by
  constructor
  · cases chunks with
    | nil =>
      simp only [List.map_nil, List.sum_nil] at ht
      omega
    | cons c cs =>
      have hc : c.length ≤ maxbuf := hm c (by simp)
      have hm2 : ∀ d ∈ cs, d.length ≤ maxbuf := fun d hd => hm d (by simp [hd])
      have ht2 : ndata * width ≤ c.length + (cs.map List.length).sum := by
        simpa using ht
      have hlt : c.length < ndata * width + maxbuf := by omega
      obtain ⟨buf, h1, h2, h3⟩ := readAccum_bound (ndata * width) maxbuf cs c hm2 ht2 hlt
      refine ⟨buf.length, ?_, h2, h3⟩
      show (readAccum c (ndata * width) cs).map List.length = some buf.length
      rw [h1]
      rfl
  · intro b rest hb
    cases rest <;> simp [readAccum, hb]

/-- Witness for C6 (amended): 12 samples of width 2 over the fragmented
deliveries, with `maxbuf = 4096`. -/
theorem c6_read_bounded_overshoot_witness :
    (∃ consumed, Channelclient.readConsumed
        [[1, 0, 2, 0, 3, 0, 4, 0, 5, 0], [6, 0, 7, 0, 8, 0, 9], [0, 10, 0, 255, 255],
         [254, 255]] 12 2 = some consumed ∧
      12 * 2 ≤ consumed ∧ consumed < 12 * 2 + 4096) ∧
    (∀ b rest, 12 * 2 ≤ List.length b → readAccum b (12 * 2) rest = some b) :=
  c6_read_bounded_overshoot
    [[1, 0, 2, 0, 3, 0, 4, 0, 5, 0], [6, 0, 7, 0, 8, 0, 9], [0, 10, 0, 255, 255],
     [254, 255]] 12 2 4096 (by decide) (by decide) (by decide)

/-- Claim C1: when the predecessor snapshot has `state == 0` and a newly
parsed record has `state > 1`, the poller enters the fatal sequencing-fault
path exactly once: it sets `quit_requested`, issues exactly one process
termination request (`os.kill`), stops its own loop (no record after the
faulting one is processed), and raises neither the `Armed` nor the `Stopped`
signal for that record. -/
theorem c1_sequencing_fault_fatal (s : MonState) (prev : List Nat) (r : List Char)
    (v : List Nat) (rs : List (List Char))
    (hq : s.quit_requested = false) (hs : s.status = some prev)
    (h0 : prev.getD SF.STATE 0 = 0) (hp : parseRecord r = some v)
    (h1 : 1 < v.getD SF.STATE 0) :
    (st_monitor_run s (r :: rs)).2 = [st_monitor_step s r] ∧
    st_monitor_step s r = ⟨{ s with quit_requested := true }, false, false, 1, true⟩ ∧
    ((st_monitor_run s (r :: rs)).2.map (fun o => o.kills)).sum = 1 := by
  have hstep := st_monitor_step_fault s prev r v hs hp h0 h1
  refine ⟨?_, hstep, ?_⟩ <;> simp [st_monitor_run, hq, hstep]

/-- Witness for C1: seed snapshot `0 100 900 0 0`, then the stream emits
`3 100 900 500 0` directly, with one further record that is never
processed. -/
theorem c1_sequencing_fault_fatal_witness :
    (st_monitor_run (Statusmonitor.init [0, 100, 900, 0, 0])
        [("3 100 900 500 0".toList), ("0 100 900 1000 0".toList)]).2 =
      [st_monitor_step (Statusmonitor.init [0, 100, 900, 0, 0]) ("3 100 900 500 0".toList)] ∧
    st_monitor_step (Statusmonitor.init [0, 100, 900, 0, 0]) ("3 100 900 500 0".toList) =
      ⟨{ Statusmonitor.init [0, 100, 900, 0, 0] with quit_requested := true },
       false, false, 1, true⟩ ∧
    ((st_monitor_run (Statusmonitor.init [0, 100, 900, 0, 0])
        [("3 100 900 500 0".toList), ("0 100 900 1000 0".toList)]).2.map
          (fun o => o.kills)).sum = 1 :=
  c1_sequencing_fault_fatal (Statusmonitor.init [0, 100, 900, 0, 0]) [0, 100, 900, 0, 0]
    ("3 100 900 500 0".toList) [3, 100, 900, 500, 0] [("0 100 900 1000 0".toList)]
    rfl rfl (by decide) (by decide) (by decide)

/-- Claim C2: over any processed sequence of successfully parsed status
vectors (no sequencing fault, which would abort the loop), the `Stopped`
signal is raised at a record exactly when the previous snapshot's state is
nonzero and the new state is zero — once per such transition, never on
zero-to-zero or nonzero-to-nonzero transitions. -/
theorem c2_stopped_edge_exact (s : MonState) (v0 : List Nat) (rs : List (List Char))
    (vs : List (List Nat))
    (hq : s.quit_requested = false) (hs : s.status = some v0)
    (hp : rs.map parseRecord = vs.map some)
    (hnf : ∀ pr ∈ List.zip (v0 :: vs) vs,
      ¬(pr.1.getD SF.STATE 0 = 0 ∧ 1 < pr.2.getD SF.STATE 0)) :
    (st_monitor_run s rs).2.map (fun o => o.stoppedRaised) =
      (List.zip (v0 :: vs) vs).map
        (fun pr => !(pr.1.getD SF.STATE 0 == 0) && (pr.2.getD SF.STATE 0 == 0)) := by
  induction rs generalizing s v0 vs with
  | nil =>
    cases vs with
    | nil => simp [st_monitor_run]
    | cons v vs2 => simp at hp
  | cons r rs2 ih =>
    cases vs with
    | nil => simp at hp
    | cons v vs2 =>
      simp only [List.map_cons, List.cons.injEq] at hp
      obtain ⟨hpr, hps⟩ := hp
      have hnf0 : ¬(v0.getD SF.STATE 0 = 0 ∧ 1 < v.getD SF.STATE 0) := by
        have hm : (v0, v) ∈ List.zip (v0 :: v :: vs2) (v :: vs2) := by
          rw [List.zip_cons_cons]
          exact List.mem_cons_self _ _
        exact hnf (v0, v) hm
      have hstep := st_monitor_step_some s v0 r v hs hpr hnf0
      have hnf2 : ∀ pr ∈ List.zip (v :: vs2) vs2,
          ¬(pr.1.getD SF.STATE 0 = 0 ∧ 1 < pr.2.getD SF.STATE 0) := by
        intro pr hpr2
        refine hnf pr ?_
        rw [List.zip_cons_cons]
        exact List.mem_cons_of_mem _ hpr2
      have htail := ih
        { s with status := some v,
                 stopped := s.stopped ||
                   (!(v0.getD SF.STATE 0 == 0) && (v.getD SF.STATE 0 == 0)),
                 armed := s.armed || (v.getD SF.STATE 0 == 1) }
        v vs2 hq rfl hps hnf2
      rw [hq] at htail
      simp only [List.getD_eq_getElem?_getD] at htail
      simp [st_monitor_run, hq, hstep, List.zip_cons_cons, htail]

/-- Witness for C2: the spec's normal scenario — seed `0 100 900 0 0`, then
records `1 100 900 0 0`, `2 100 900 15 0`, `0 100 900 1000 0`; `Stopped` is
raised only at the final nonzero-to-zero transition. -/
theorem c2_stopped_edge_exact_witness :
    (st_monitor_run (Statusmonitor.init [0, 100, 900, 0, 0])
        [("1 100 900 0 0".toList), ("2 100 900 15 0".toList),
         ("0 100 900 1000 0".toList)]).2.map (fun o => o.stoppedRaised) =
      (List.zip ([0, 100, 900, 0, 0] ::
          [[1, 100, 900, 0, 0], [2, 100, 900, 15, 0], [0, 100, 900, 1000, 0]])
          [[1, 100, 900, 0, 0], [2, 100, 900, 15, 0], [0, 100, 900, 1000, 0]]).map
        (fun pr => !(pr.1.getD SF.STATE 0 == 0) && (pr.2.getD SF.STATE 0 == 0)) :=
  c2_stopped_edge_exact (Statusmonitor.init [0, 100, 900, 0, 0]) [0, 100, 900, 0, 0]
    [("1 100 900 0 0".toList), ("2 100 900 15 0".toList), ("0 100 900 1000 0".toList)]
    [[1, 100, 900, 0, 0], [2, 100, 900, 15, 0], [0, 100, 900, 1000, 0]]
    rfl rfl (by decide) (by decide)

/-- Claim C8: a record that does not match the status pattern is discarded
with no side effect — the monitor state (snapshot, signals, quit flag) is
unchanged, no kill or exit occurs, and the loop continues with the
remaining records from the same state. -/
theorem c8_nonmatching_no_side_effect (s : MonState) (r : List Char)
    (rs : List (List Char))
    (hq : s.quit_requested = false) (h : parseRecord r = none) :
    st_monitor_step s r = ⟨s, false, false, 0, false⟩ ∧
    st_monitor_run s (r :: rs) =
      ((st_monitor_run s rs).1, ⟨s, false, false, 0, false⟩ :: (st_monitor_run s rs).2) := by
  have hstep := st_monitor_step_none s r h
  refine ⟨hstep, ?_⟩
  simp [st_monitor_run, hq, hstep]

/-- Witness for C8: the malformed record `hello` is discarded and the loop
goes on to process `0 100 900 0 0`. -/
theorem c8_nonmatching_no_side_effect_witness :
    st_monitor_step (Statusmonitor.init [1, 100, 900, 0, 0]) ("hello".toList) =
      ⟨Statusmonitor.init [1, 100, 900, 0, 0], false, false, 0, false⟩ ∧
    st_monitor_run (Statusmonitor.init [1, 100, 900, 0, 0])
        [("hello".toList), ("0 100 900 0 0".toList)] =
      ((st_monitor_run (Statusmonitor.init [1, 100, 900, 0, 0])
          [("0 100 900 0 0".toList)]).1,
        ⟨Statusmonitor.init [1, 100, 900, 0, 0], false, false, 0, false⟩ ::
        (st_monitor_run (Statusmonitor.init [1, 100, 900, 0, 0])
          [("0 100 900 0 0".toList)]).2) :=
  c8_nonmatching_no_side_effect (Statusmonitor.init [1, 100, 900, 0, 0])
    ("hello".toList) [("0 100 900 0 0".toList)] rfl (by decide)

/-- Claim C4: a successful `wait_armed`/`wait_stopped` consumes (clears) its
signal before returning, so an immediately following wait on the same
signal blocks until the signal is raised again; raising a signal twice
before it is observed satisfies only one wait call. -/
theorem c4_wait_consumes_signal (s : MonState) (hq : s.quit_requested = false) :
    (wait_armed (raiseArmed (raiseArmed s))).1 = WaitResult.success ∧
    (wait_armed (raiseArmed (raiseArmed s))).2.armed = false ∧
    (wait_armed ((wait_armed (raiseArmed (raiseArmed s))).2)).1 = WaitResult.blocked ∧
    (wait_stopped (raiseStopped (raiseStopped s))).1 = WaitResult.success ∧
    (wait_stopped (raiseStopped (raiseStopped s))).2.stopped = false ∧
    (wait_stopped ((wait_stopped (raiseStopped (raiseStopped s))).2)).1 =
      WaitResult.blocked := by
  simp [wait_armed, wait_stopped, wait_event, raiseArmed, raiseStopped, hq]

/-- Witness for C4: the double-raise-then-wait scenario on a freshly seeded
monitor. -/
theorem c4_wait_consumes_signal_witness :
    (wait_armed (raiseArmed (raiseArmed (Statusmonitor.init [0])))).1 =
      WaitResult.success ∧
    (wait_armed (raiseArmed (raiseArmed (Statusmonitor.init [0])))).2.armed = false ∧
    (wait_armed ((wait_armed (raiseArmed (raiseArmed (Statusmonitor.init [0])))).2)).1 =
      WaitResult.blocked ∧
    (wait_stopped (raiseStopped (raiseStopped (Statusmonitor.init [0])))).1 =
      WaitResult.success ∧
    (wait_stopped (raiseStopped (raiseStopped (Statusmonitor.init [0])))).2.stopped =
      false ∧
    (wait_stopped ((wait_stopped (raiseStopped (raiseStopped
        (Statusmonitor.init [0])))).2)).1 = WaitResult.blocked :=
  c4_wait_consumes_signal (Statusmonitor.init [0]) rfl

/-- Claim C5 counterexample: the claim fails for multi-digit state values.
The pattern's first group is a single `[0-9]`, so searching
`12 100 900 0 0` matches from the second character: the captured fields
re-serialize to `2 100 900 0 0`, not the original record.  (A multi-digit
demux field fails the same way, since `([0-9])+` captures only the last
digit.) -/
theorem c5_roundtrip_counterexample :
    (st_re_search ("12 100 900 0 0".toList)).map serializeGroups =
      some ("2 100 900 0 0".toList) ∧
    ("2 100 900 0 0".toList) ≠ ("12 100 900 0 0".toList) := by
  constructor
  · rfl
  · decide

/-- Claim C5 (amended): for records whose state and demux fields are single
digits (pre, post and elapsed may be arbitrary multi-digit non-negative
decimals), parsing with the status pattern captures exactly the five
fields, and re-serializing them reproduces the record. -/
theorem c5_roundtrip_single_digit (s d : Char) (p q e : List Char)
    (hs : s.isDigit = true) (hd : d.isDigit = true)
    (hpn : p ≠ []) (hp : ∀ c ∈ p, c.isDigit = true)
    (hqn : q ≠ []) (hq : ∀ c ∈ q, c.isDigit = true)
    (hen : e ≠ []) (he : ∀ c ∈ e, c.isDigit = true) :
    st_re_search (s :: ' ' :: (p ++ ' ' :: (q ++ ' ' :: (e ++ ' ' :: [d])))) =
      some [[s], p, q, e, [d]] ∧
    serializeGroups [[s], p, q, e, [d]] =
      s :: ' ' :: (p ++ ' ' :: (q ++ ' ' :: (e ++ ' ' :: [d]))) := by
  constructor
  · have hm := matchAt_record s d p q e hs hd hpn hp hqn hq hen he
    simp [st_re_search, hm]
  · simp [serializeGroups]

/-- Witness for C5 (amended): the record `1 100 900 0 2`. -/
theorem c5_roundtrip_single_digit_witness :
    st_re_search ('1' :: ' ' :: (("100".toList) ++ ' ' ::
        (("900".toList) ++ ' ' :: (("0".toList) ++ ' ' :: ['2'])))) =
      some [['1'], "100".toList, "900".toList, "0".toList, ['2']] ∧
    serializeGroups [['1'], "100".toList, "900".toList, "0".toList, ['2']] =
      '1' :: ' ' :: (("100".toList) ++ ' ' ::
        (("900".toList) ++ ' ' :: (("0".toList) ++ ' ' :: ['2']))) :=
  c5_roundtrip_single_digit '1' '2' ("100".toList) ("900".toList) ("0".toList)
    (by decide) (by decide) (by decide) (by decide) (by decide) (by decide)
    (by decide) (by decide)

/-- Claim C7 (code bug): a successful telemetry parse yields exactly 5
fields (indices 0–4), the demux field sitting at index 4 — but
`Acq400.demux_status` reads `status[SF.DEMUX]` with `SF.DEMUX = 5`, which is
out of bounds of the snapshot (`IndexError` in the source, `none` here)
instead of returning the demux value 7. -/
theorem c7_demux_index_out_of_bounds :
    parseRecord ("0 100 900 0 7".toList) = some [0, 100, 900, 0, 7] ∧
    List.length [0, 100, 900, 0, 7] = 5 ∧
    Acq400.demux_status ⟨some ⟨false, some [0, 100, 900, 0, 7], false, false⟩⟩ = none ∧
    List.get? [0, 100, 900, 0, 7] 4 = some 7 := by
  refine ⟨by decide, rfl, ?_, rfl⟩
  rfl

/-- Claim C9 (code bug): `Acq400.__init__` parses the seed status vector in
every case, but assigns `self.statmon` only when `monitor=True`; with
`monitor=False` every snapshot accessor fails (`AttributeError` via
`__getattr__`, `none` here) instead of returning the seeded fields, which
the same accessors do return when the monitor is enabled. -/
theorem c9_monitor_false_accessors_fail (seed : List Nat) :
    (Acq400.init seed false).statmon = none ∧
    Acq400.state (Acq400.init seed false) = none ∧
    Acq400.pre_samples (Acq400.init seed false) = none ∧
    Acq400.post_samples (Acq400.init seed false) = none ∧
    Acq400.elapsed_samples (Acq400.init seed false) = none ∧
    Acq400.samples (Acq400.init seed false) = none ∧
    Acq400.state (Acq400.init seed true) = seed.get? SF.STATE ∧
    Acq400.pre_samples (Acq400.init seed true) = seed.get? SF.PRE := by
  refine ⟨rfl, rfl, rfl, rfl, rfl, rfl, ?_, ?_⟩ <;>
    simp [Acq400.init, Acq400.state, Acq400.pre_samples, Acq400.statusField,
      Statusmonitor.init, List.get?_eq_getElem?]

/-- Claim C10: `Acq400.read_chan` (and hence `read_channels`) always invokes
the channel read with the default 2-byte sample width — the result is the
16-bit decode for every channel stream, and the 4-byte decode differs on
concrete data, so the width genuinely matters. -/
theorem c10_read_chan_width2 (a : Acq400) (p q : Nat) (chunks : List (List Nat))
    (hp : a.pre_samples = some p) (hq : a.post_samples = some q) :
    a.read_chan chunks = Channelclient.read chunks (p + q) 2 ∧
    (∀ streams : List (List (List Nat)),
      a.read_channels streams =
        streams.map (fun s => Channelclient.read s (p + q) 2)) ∧
    Channelclient.read [[0, 128, 0, 0]] 1 2 ≠ Channelclient.read [[0, 128, 0, 0]] 1 4 := by
  refine ⟨?_, ?_, by decide⟩
  · simp [Acq400.read_chan, hp, hq]
  · intro streams
    simp [Acq400.read_channels, Acq400.read_chan, hp, hq]

/-- Witness for C10: a device handle seeded with `pre = 100`, `post = 900`
and the monitor enabled. -/
theorem c10_read_chan_width2_witness :
    Acq400.read_chan (Acq400.init [0, 100, 900, 0, 0] true) [] =
      Channelclient.read [] (100 + 900) 2 ∧
    (∀ streams : List (List (List Nat)),
      Acq400.read_channels (Acq400.init [0, 100, 900, 0, 0] true) streams =
        streams.map (fun s => Channelclient.read s (100 + 900) 2)) ∧
    Channelclient.read [[0, 128, 0, 0]] 1 2 ≠ Channelclient.read [[0, 128, 0, 0]] 1 4 :=
  c10_read_chan_width2 (Acq400.init [0, 100, 900, 0, 0] true) 100 900 [] rfl rfl

end Acq400Hapi
